import Mathlib

/-!
# Verification of the hyperliquid-bot PnL ledger (src/main.py)

Shallow embedding of the core of `src/main.py`: direction classification
(`get_direction`), the per-coin position/fee ledger (`calculate_new_totals`),
net-PnL computation (`calculate_net_pnl`), and the two reconciliation loops
(`process_incremental_trades_for_wallet`, `process_new_trades`).

Python floats are embedded as exact rationals (`Rat`); the tolerances
`1e-10`, `1e-8`, `1e-6` from the source become the rational constants below.
Python string operations that the code relies on (`'Open' in direction`,
`.lower()`, f-string labels) are embedded as executable `String` functions so
that the substring-based direction dispatch is modelled faithfully.
-/

set_option maxRecDepth 100000
set_option maxHeartbeats 1000000

namespace HL

/-- `1e-10`, the tolerance used for size/fee clamping in `calculate_new_totals`
and for the position algebra in `get_direction`. -/
def tol10 : Rat := 1 / 10 ^ 10

/-- `1e-8`, the tolerance used by the liquidation branch of `get_direction`. -/
def tol8 : Rat := 1 / 10 ^ 8

/-- `1e-6`, the drift tolerance for the forced fee settlement. -/
def tol6 : Rat := 1 / 10 ^ 6

/-- Python's substring test `sub in s`. -/
def containsSub (s sub : String) : Bool :=
  decide (sub.toList <:+: s.toList)

/-- Liquidation metadata of a fill (the `liquidation` dict of the API payload). -/
structure Liq where
  method : String
  liquidatedUser : String
deriving DecidableEq

/-- One executed-trade event as fetched from the venue (`fill` dict in
`src/main.py`).  `dirField` models `fill.get('dir') or fill.get('direction') or ''`
(empty when absent); `liquidation` is `None` or the liquidation dict. -/
structure Fill where
  oid : Nat
  coin : String
  time : Nat
  px : Rat
  sz : Rat
  side : String
  startPosition : Rat
  closedPnl : Rat
  fee : Rat
  liquidation : Option Liq
  dirField : String
deriving DecidableEq

/-- The six accumulator fields persisted per (wallet, coin), in the order
selected by `get_current_totals` (src/main.py lines 1288-1290). -/
structure Totals where
  total_open_size_long : Rat
  total_close_size_long : Rat
  total_open_size_short : Rat
  total_close_size_short : Rat
  accumulated_fees_long : Rat
  accumulated_fees_short : Rat
deriving DecidableEq

/-- The all-zero accumulator returned when no row exists yet. -/
def zeroTotals : Totals := ⟨0, 0, 0, 0, 0, 0⟩

/-- `get_direction` lines 1239-1275: the position algebra applied to
non-liquidation fills (and to liquidation fills of other wallets, which fall
through to it).  Returns the exact direction strings of the source. -/
def position_algebra (side : String) (start_position sz : Rat) (dir_field : String) : String :=
  if side = "b" ∨ side = "buy" then
    if start_position ≤ 0 then
      if |start_position + sz| < tol10 then "Close Short"
      else if start_position + sz > 0 then
        if |start_position| < tol10 then "Open Long"
        else "Close Short + Open Long"
      else "Decrease Short"
    else "Increase Long"
  else if side = "a" ∨ side = "sell" then
    if start_position ≥ 0 then
      if |start_position - sz| < tol10 then "Close Long"
      else if start_position - sz < 0 then
        if |start_position| < tol10 then "Open Short"
        else "Close Long + Open Short"
      else "Decrease Long"
    else "Increase Short"
  else
    "Unknown (dir: " ++ dir_field ++ ", side: " ++ side ++
      ", startPosition: " ++ toString start_position ++ ", sz: " ++ toString sz ++ ")"

/-- `get_direction` (src/main.py lines 1195-1275).  A fill with `sz ≤ 0` is
Invalid; a market-liquidation fill of the monitored wallet is classified
Close/Decrease with a liquidation qualifier (side taken from the venue `dir`
string, falling back to the sign of `startPosition`); everything else goes
through the position algebra. -/
def get_direction (fill : Fill) (wallet_address : String) : String :=
  let dir_field := fill.dirField
  let side := fill.side.toLower
  let start_position := fill.startPosition
  let sz := fill.sz
  let address := wallet_address.toLower
  if sz ≤ 0 then "Invalid (sz: " ++ toString sz ++ ")"
  else
    match fill.liquidation with
    | some liq =>
      if liq.method = "market" then
        let liquidated_user := liq.liquidatedUser.toLower
        let base_direction :=
          if containsSub dir_field "Long" then "Long"
          else if containsSub dir_field "Short" then "Short"
          else if start_position ≥ 0 then "Long" else "Short"
        if liquidated_user = address then
          if start_position < 0 then
            if abs (sz - abs start_position) < tol8 then "Close " ++ base_direction ++ " (Liquidation)"
            else "Decrease " ++ base_direction ++ " (Partial Liquidation)"
          else
            if |sz - start_position| < tol8 then "Close " ++ base_direction ++ " (Liquidation)"
            else "Decrease " ++ base_direction ++ " (Partial Liquidation)"
        else position_algebra side start_position sz dir_field
      else position_algebra side start_position sz dir_field
    | none => position_algebra side start_position sz dir_field

/-- `calculate_bot_fee` (src/main.py lines 1278-1282). -/
def calculate_bot_fee (size price bps : Rat) : Rat :=
  size * price * (bps / 10000)

/-- The direction lists of `calculate_new_totals` (src/main.py lines 1319-1323). -/
def open_directions : List String :=
  ["Open Long", "Increase Long", "Open Long (Liquidation Taker)", "Increase Long (Liquidation Taker)"]

def close_directions : List String :=
  ["Close Long", "Decrease Long", "Close Long (Liquidation)", "Decrease Long (Partial Liquidation)"]

def short_open_directions : List String :=
  ["Open Short", "Increase Short", "Open Short (Liquidation Taker)", "Increase Short (Liquidation Taker)"]

def short_close_directions : List String :=
  ["Close Short", "Decrease Short", "Close Short (Liquidation)", "Decrease Short (Partial Liquidation)"]

def combined_directions : List String :=
  ["Close Short + Open Long", "Close Long + Open Short"]

/-- Clamping `if abs(x) < 1e-10: x = 0.0` (src/main.py lines 1432-1440). -/
def clamp10 (x : Rat) : Rat := if |x| < tol10 then 0 else x

/-- Result of one branch of `calculate_new_totals` before the final clamps:
updated raw totals, `realized_fees`, `close_fee_only`, and the two fee-warning
flags. -/
structure BranchResult where
  totals : Totals
  realized_fees : Rat
  close_fee_only : Option Rat
  fees_warning_long : Bool
  fees_warning_short : Bool
deriving DecidableEq

/-- The Close/Decrease-Long branch (src/main.py lines 1336-1352): bump the
close size, realize a proportional share of the accumulated long fees when the
pre-update remaining size and the reserve are positive, and force-settle the
reserve when the position ends fully closed with a drifted reserve. -/
def apply_close_long (current : Totals) (size : Rat) : BranchResult :=
  let new_close := current.total_close_size_long + size
  let current_remaining := current.total_open_size_long - current.total_close_size_long
  if current_remaining > 0 ∧ current.accumulated_fees_long > 0 then
    let proportion := min (size / current_remaining) 1
    let realized := current.accumulated_fees_long * proportion
    let fees1 := current.accumulated_fees_long - realized
    let remaining_after := current.total_open_size_long - new_close
    if |remaining_after| < tol10 ∧ |fees1| > tol6 then
      ⟨{ current with total_close_size_long := new_close, accumulated_fees_long := 0 },
        realized + fees1, none, true, false⟩
    else
      ⟨{ current with total_close_size_long := new_close, accumulated_fees_long := fees1 },
        realized, none, false, false⟩
  else
    ⟨{ current with total_close_size_long := new_close }, 0, none, false, false⟩

/-- The Close/Decrease-Short branch (src/main.py lines 1359-1375), symmetric to
`apply_close_long`. -/
def apply_close_short (current : Totals) (size : Rat) : BranchResult :=
  let new_close := current.total_close_size_short + size
  let current_remaining := current.total_open_size_short - current.total_close_size_short
  if current_remaining > 0 ∧ current.accumulated_fees_short > 0 then
    let proportion := min (size / current_remaining) 1
    let realized := current.accumulated_fees_short * proportion
    let fees1 := current.accumulated_fees_short - realized
    let remaining_after := current.total_open_size_short - new_close
    if |remaining_after| < tol10 ∧ |fees1| > tol6 then
      ⟨{ current with total_close_size_short := new_close, accumulated_fees_short := 0 },
        realized + fees1, none, false, true⟩
    else
      ⟨{ current with total_close_size_short := new_close, accumulated_fees_short := fees1 },
        realized, none, false, false⟩
  else
    ⟨{ current with total_close_size_short := new_close }, 0, none, false, false⟩

/-- The `Close Short + Open Long` branch (src/main.py lines 1379-1401): close
the entire remaining short exposure, drain the short fee reserve, open the
remainder long with the proportional open-leg fee share, and record the
close-leg share as `close_fee_only`. -/
def apply_combined_close_short_open_long (current : Totals) (size total_trade_fee : Rat) :
    BranchResult :=
  let close_size := |current.total_open_size_short - current.total_close_size_short|
  let open_size := size - close_size
  let close_portion := if size > 0 then close_size / size else 0
  let close_fee := total_trade_fee * close_portion
  let open_fee := total_trade_fee - close_fee
  let t1 := { current with total_close_size_short := current.total_close_size_short + close_size }
  let realized := if t1.accumulated_fees_short > 0 then t1.accumulated_fees_short else 0
  let t2 := if t1.accumulated_fees_short > 0 then { t1 with accumulated_fees_short := 0 } else t1
  let t3 :=
    if open_size > 0 then
      { t2 with total_open_size_long := t2.total_open_size_long + open_size,
                accumulated_fees_long := t2.accumulated_fees_long + open_fee }
    else t2
  ⟨t3, realized, some close_fee, false, false⟩

/-- The `Close Long + Open Short` branch (src/main.py lines 1403-1425),
symmetric to `apply_combined_close_short_open_long`. -/
def apply_combined_close_long_open_short (current : Totals) (size total_trade_fee : Rat) :
    BranchResult :=
  let close_size := |current.total_open_size_long - current.total_close_size_long|
  let open_size := size - close_size
  let close_portion := if size > 0 then close_size / size else 0
  let close_fee := total_trade_fee * close_portion
  let open_fee := total_trade_fee - close_fee
  let t1 := { current with total_close_size_long := current.total_close_size_long + close_size }
  let realized := if t1.accumulated_fees_long > 0 then t1.accumulated_fees_long else 0
  let t2 := if t1.accumulated_fees_long > 0 then { t1 with accumulated_fees_long := 0 } else t1
  let t3 :=
    if open_size > 0 then
      { t2 with total_open_size_short := t2.total_open_size_short + open_size,
                accumulated_fees_short := t2.accumulated_fees_short + open_fee }
    else t2
  ⟨t3, realized, some close_fee, false, false⟩

/-- Dispatch of `calculate_new_totals` over the direction lists
(src/main.py lines 1330-1425), before the final remaining/clamp block. -/
def totals_step (current : Totals) (direction : String) (size total_trade_fee : Rat) :
    BranchResult :=
  if size > 0 then
    if direction ∈ open_directions then
      ⟨{ current with total_open_size_long := current.total_open_size_long + size,
                      accumulated_fees_long := current.accumulated_fees_long + total_trade_fee },
        0, none, false, false⟩
    else if direction ∈ close_directions then
      apply_close_long current size
    else if direction ∈ short_open_directions then
      ⟨{ current with total_open_size_short := current.total_open_size_short + size,
                      accumulated_fees_short := current.accumulated_fees_short + total_trade_fee },
        0, none, false, false⟩
    else if direction ∈ short_close_directions then
      apply_close_short current size
    else if direction ∈ combined_directions then
      if direction = "Close Short + Open Long" then
        apply_combined_close_short_open_long current size total_trade_fee
      else
        apply_combined_close_long_open_short current size total_trade_fee
    else ⟨current, 0, none, false, false⟩
  else ⟨current, 0, none, false, false⟩

/-- The full result of `calculate_new_totals`: the persisted totals (fees
already clamped), the clamped remaining sizes, `realized_fees`,
`close_fee_only` and the warning flags. -/
structure NewTotals where
  totals : Totals
  remaining_open_size_long : Rat
  remaining_open_size_short : Rat
  realized_fees : Rat
  close_fee_only : Option Rat
  fees_warning_long : Bool
  fees_warning_short : Bool
deriving DecidableEq

/-- `calculate_new_totals` (src/main.py lines 1318-1444): one ledger
transition, `total_trade_fee = exchange_fee + bot_fee`, followed by the
remaining computation and the `1e-10` clamps on the remaining sizes and fee
reserves. -/
def calculate_new_totals (current : Totals) (direction : String)
    (size exchange_fee bot_fee : Rat) : NewTotals :=
  let total_trade_fee := exchange_fee + bot_fee
  let step := totals_step current direction size total_trade_fee
  let t := step.totals
  { totals := { t with accumulated_fees_long := clamp10 t.accumulated_fees_long,
                       accumulated_fees_short := clamp10 t.accumulated_fees_short },
    remaining_open_size_long := clamp10 (t.total_open_size_long - t.total_close_size_long),
    remaining_open_size_short := clamp10 (t.total_open_size_short - t.total_close_size_short),
    realized_fees := step.realized_fees,
    close_fee_only := step.close_fee_only,
    fees_warning_long := step.fees_warning_long,
    fees_warning_short := step.fees_warning_short }

/-- `calculate_net_pnl` (src/main.py lines 1447-1465) as called with all six
arguments (the full-sync path, line 1714).  A direction containing `"Open"` or
`"Increase"` as a substring yields `0`; otherwise the fees subtracted are
`close_fee_only + realized_fees` when `close_fee_only` is not `None`, and
`exchange_fee + bot_fee + realized_fees` otherwise. -/
def calculate_net_pnl (closed_pnl exchange_fee bot_fee realized_fees : Rat)
    (direction : String) (close_fee_only : Option Rat) : Rat :=
  if direction ≠ "" ∧ (containsSub direction "Open" || containsSub direction "Increase") then 0
  else
    match close_fee_only with
    | some c => closed_pnl - (c + realized_fees)
    | none => closed_pnl - (exchange_fee + bot_fee + realized_fees)

/-- Models the call `calculate_net_pnl(closed_pnl, fee, bot_fee,
new_totals['realized_fees'], close_fee_only)` at src/main.py line 1003: five
positional arguments bind the `close_fee_only` value to the `direction`
parameter, leaving the `close_fee_only` parameter at its default `None`.
Under Python semantics a `None` or `0.0` direction is falsy and skips the
substring test, reaching the all-fees branch; a nonzero float direction is
truthy and evaluating `'Open' in direction` raises `TypeError`, modelled here
as `none`. -/
def calculate_net_pnl_incr_call (closed_pnl exchange_fee bot_fee realized_fees : Rat)
    (cfo_as_direction : Option Rat) : Option Rat :=
  match cfo_as_direction with
  | some c =>
    if c = 0 then some (closed_pnl - (exchange_fee + bot_fee + realized_fees))
    else none
  | none => some (closed_pnl - (exchange_fee + bot_fee + realized_fees))

/-- One persisted row of `trades_{wallet}` (the columns of the INSERT at
src/main.py lines 1006-1020), in insertion order inside a `List`. -/
structure Entry where
  oid : Nat
  coin : String
  time : Nat
  price : Rat
  size : Rat
  side : String
  direction : String
  closedPnl : Rat
  fee : Rat
  startPosition : Rat
  totals : Totals
  remaining_open_size_long : Rat
  remaining_open_size_short : Rat
  realized_fees : Rat
  net_pnl : Rat
  exchange_fee : Rat
  bot_fee : Rat
deriving DecidableEq

/-- `get_last_trade_timestamp` (src/main.py lines 326-336):
`SELECT MAX(timestamp)`, with `0` when the table is empty (SQL `NULL`) or the
stored maximum itself is `0`. -/
def get_last_trade_timestamp (store : List Entry) : Nat :=
  store.foldl (fun m e => max m e.time) 0

/-- `trade_exists_in_db` (src/main.py lines 338-349): the 5-field dedup test
`oid, coin, timestamp, size, startPosition`. -/
def trade_exists_in_db (store : List Entry) (oid : Nat) (coin : String) (time : Nat)
    (size start_position : Rat) : Bool :=
  store.any fun e =>
    decide (e.oid = oid ∧ e.coin = coin ∧ e.time = time ∧ e.size = size ∧
      e.startPosition = start_position)

/-- The candidate-selection loop of `process_incremental_trades_for_wallet`
(src/main.py lines 939-958): keep, in delivery order, the fills whose
timestamp is at least the watermark and whose dedup key is not in the store. -/
def filter_new_trades (store : List Entry) : List Fill → List Fill
  | [] => []
  | f :: rest =>
    if get_last_trade_timestamp store ≤ f.time ∧
        ¬ trade_exists_in_db store f.oid f.coin f.time f.sz f.startPosition then
      f :: filter_new_trades store rest
    else
      filter_new_trades store rest

/-- `get_current_totals` (src/main.py lines 1285-1315): the six accumulator
fields of the most recently inserted row for the coin, or zeros. -/
def get_current_totals (store : List Entry) (coin : String) : Totals :=
  match (store.filter fun e => e.coin == coin).getLast? with
  | some e => e.totals
  | none => zeroTotals

/-- Assembles the persisted row from a fill, its classified direction, the
ledger transition result and the computed net PnL. -/
def make_entry (fill : Fill) (direction : String) (nt : NewTotals)
    (net_pnl bot_fee : Rat) : Entry :=
  { oid := fill.oid, coin := fill.coin, time := fill.time, price := fill.px,
    size := fill.sz, side := fill.side, direction := direction,
    closedPnl := fill.closedPnl, fee := fill.fee, startPosition := fill.startPosition,
    totals := nt.totals,
    remaining_open_size_long := nt.remaining_open_size_long,
    remaining_open_size_short := nt.remaining_open_size_short,
    realized_fees := nt.realized_fees, net_pnl := net_pnl,
    exchange_fee := fill.fee, bot_fee := bot_fee }

/-- The classify→apply→compute unit of the incremental loop (src/main.py
lines 975-1020) for one fill against the current store: bot fee at the default
5 bps, direction from `get_direction`, totals from the last row for the coin,
and the net PnL through the five-positional-argument call of line 1003.
`none` models the per-fill exception path (the `except` at lines 1027-1029):
no row is produced. -/
def process_fill_incremental (store : List Entry) (wallet : String) (fill : Fill) :
    Option Entry :=
  let bot_fee := calculate_bot_fee fill.sz fill.px 5
  let direction := get_direction fill wallet
  let current := get_current_totals store fill.coin
  let nt := calculate_new_totals current direction fill.sz fill.fee bot_fee
  match calculate_net_pnl_incr_call fill.closedPnl fill.fee bot_fee nt.realized_fees
      nt.close_fee_only with
  | none => none
  | some np => some (make_entry fill direction nt np bot_fee)

/-- The per-fill loop of the incremental path (src/main.py lines 975-1034):
a failing fill is skipped (`continue`) and not counted; a succeeding fill is
inserted and counted. Returns the final store and `processed_count`. -/
def run_fills_incremental (store : List Entry) (wallet : String) :
    List Fill → List Entry × Nat
  | [] => (store, 0)
  | f :: rest =>
    match process_fill_incremental store wallet f with
    | none => run_fills_incremental store wallet rest
    | some e =>
      let r := run_fills_incremental (store ++ [e]) wallet rest
      (r.1, r.2 + 1)

/-- The sort relation of the incremental path: `sorted(new_trades,
key=lambda x: x.get('time', 0))` (src/main.py line 972) orders by timestamp
only. -/
def fill_time_le (a b : Fill) : Prop := a.time ≤ b.time

instance : DecidableRel fill_time_le := fun a b => Nat.decLe a.time b.time

/-- Python's `sorted` is a stable sort; any two stable sorts with the same key
agree, so insertion sort (which is stable for a `≤`-style relation) models it.
-/
def sort_by_time (fills : List Fill) : List Fill :=
  List.insertionSort fill_time_le fills

instance : IsTotal Fill fill_time_le := ⟨fun a b => Nat.le_total a.time b.time⟩

instance : IsTrans Fill fill_time_le := ⟨fun _ _ _ => Nat.le_trans⟩

/-- Strict order on the sort key of the incremental path. -/
def fill_time_lt (a b : Fill) : Prop := a.time < b.time

instance : IsAntisymm Fill fill_time_lt :=
  ⟨fun _ _ h1 h2 => absurd (Nat.lt_trans h1 h2) (Nat.lt_irrefl _)⟩

/-- `process_incremental_trades_for_wallet` (src/main.py lines 918-1038),
restricted to its ledger semantics: select the new candidates against the
watermark and the dedup keys, sort them by timestamp, and run the per-fill
loop. -/
def process_incremental_trades_for_wallet (store : List Entry) (wallet : String)
    (fills : List Fill) : List Entry × Nat :=
  run_fills_incremental store wallet (sort_by_time (filter_new_trades store fills))

/-- The sort relation of the full-sync path: `sorted(user_fills, key=lambda x:
(x.get('time', 0), int(x.get('oid', 0))))` (src/main.py line 1669), the
lexicographic order on `(timestamp, oid)`. -/
def fill_time_oid_le (a b : Fill) : Prop :=
  a.time < b.time ∨ (a.time = b.time ∧ a.oid ≤ b.oid)

instance : DecidableRel fill_time_oid_le := fun a b => by
  unfold fill_time_oid_le; infer_instance

def sort_by_time_oid (fills : List Fill) : List Fill :=
  List.insertionSort fill_time_oid_le fills

/-- The classify→apply→compute unit of the full-sync loop (src/main.py lines
1677-1731): identical to the incremental unit except that `calculate_net_pnl`
is called with the direction argument in place (line 1714), so it cannot
fail. -/
def process_fill_full (store : List Entry) (wallet : String) (fill : Fill) : Entry :=
  let bot_fee := calculate_bot_fee fill.sz fill.px 5
  let direction := get_direction fill wallet
  let current := get_current_totals store fill.coin
  let nt := calculate_new_totals current direction fill.sz fill.fee bot_fee
  let np := calculate_net_pnl fill.closedPnl fill.fee bot_fee nt.realized_fees direction
    nt.close_fee_only
  make_entry fill direction nt np bot_fee

/-- The per-fill loop of `process_new_trades` (src/main.py lines 1677-1805):
the dedup check happens inside the loop (lines 1698-1704); an existing key is
skipped, otherwise the row is inserted and counted. -/
def run_fills_full (store : List Entry) (wallet : String) : List Fill → List Entry × Nat
  | [] => (store, 0)
  | f :: rest =>
    if trade_exists_in_db store f.oid f.coin f.time f.sz f.startPosition then
      run_fills_full store wallet rest
    else
      let e := process_fill_full store wallet f
      let r := run_fills_full (store ++ [e]) wallet rest
      (r.1, r.2 + 1)

/-- `process_new_trades` (src/main.py lines 1652-1817) for one wallet: sort
every fetched fill by `(timestamp, oid)` and run the full-sync loop. -/
def process_new_trades (store : List Entry) (wallet : String) (fills : List Fill) :
    List Entry × Nat :=
  run_fills_full store wallet (sort_by_time_oid fills)

/-! ## Concrete fixtures used by the per-claim theorems -/

/-- Accumulator with 5 units of open short exposure and a short fee reserve of
`0.4` (the state of spec Scenario C). -/
def c1Cur : Totals := ⟨0, 0, 5, 0, 0, 2/5⟩

/-- The ledger transition of a `Close Short + Open Long` fill of size 8 with
exchange fee 1 against `c1Cur`. -/
def c1Nt : NewTotals := calculate_new_totals c1Cur "Close Short + Open Long" 8 1 0

/-- An `Open Long` fill: buy, size 10, price 100, start position 0,
exchange fee 1 (bot fee at 5 bps is `0.5`). -/
def c2Fill : Fill := ⟨1, "X", 100, 100, 10, "b", 0, 0, 1, none, ""⟩

/-- A `Close Long` transition of size `1e-11` against a ledger whose long side
is flat (`open = close = 0`) but whose long fee reserve is still 1. -/
def c3Nt : NewTotals := calculate_new_totals ⟨0, 0, 0, 0, 1, 0⟩ "Close Long" (1/10^11) 0 0

/-- A buy fill of size `1e-11` with `startPosition = 0` and no liquidation
metadata. -/
def c4Fill : Fill := ⟨1, "X", 1, 100, 1/10^11, "b", 0, 0, 0, none, ""⟩

/-- Two ledger transitions from the zero accumulator: a `Close Long` of size 1
(venue-reported position predating the stored history), then an `Open Long` of
size 1 with exchange fee 1. -/
def c5Nt : NewTotals :=
  calculate_new_totals (calculate_new_totals zeroTotals "Close Long" 1 0 0).totals
    "Open Long" 1 1 0

/-- An `Open Long` fill at timestamp 100 with exchange fee 1 (price 0, so the
bot fee is 0). -/
def c6FillA : Fill := ⟨1, "X", 100, 0, 10, "b", 0, 0, 1, none, ""⟩

/-- A `Close Long` fill of the full size at the same timestamp 100. -/
def c6FillB : Fill := ⟨2, "X", 100, 0, 10, "a", 10, 100, 0, none, ""⟩

/-- An `Open Short` fill: sell 5 from start position 0, fee 1, timestamp 100. -/
def c7FillG : Fill := ⟨1, "X", 100, 0, 5, "a", 0, 0, 1, none, ""⟩

/-- A `Close Short + Open Long` fill: buy 8 from start position −5, fee 8,
timestamp 100.  Against a remaining short of 5 its close-leg fee share is
`8 × 5/8 = 5 ≠ 0`. -/
def c7FillF : Fill := ⟨2, "X", 100, 0, 8, "b", -5, 50, 8, none, ""⟩

/-- A `Close Short` fill: buy 5 from start position −5, timestamp 100. -/
def c7FillH : Fill := ⟨3, "X", 100, 0, 5, "b", -5, 10, 0, none, ""⟩

/-- First incremental run over the three-fill batch `[G, F, H]` from an empty
store. -/
def c7Run1 : List Entry × Nat :=
  process_incremental_trades_for_wallet [] "w" [c7FillG, c7FillF, c7FillH]

/-- Second incremental run over the identical fill set, starting from the
store left by the first run. -/
def c7Run2 : List Entry × Nat :=
  process_incremental_trades_for_wallet c7Run1.1 "w" [c7FillG, c7FillF, c7FillH]

/-- A persisted row at timestamp 100 whose ledger snapshot holds 5 units of
open short exposure with a short fee reserve of 1. -/
def c8Entry : Entry :=
  ⟨1, "X", 100, 0, 5, "a", "Open Short", 0, 1, 0, ⟨0, 0, 5, 0, 0, 1⟩, 0, 5, 0, 0, 1, 0⟩

def c8Store : List Entry := [c8Entry]

/-- A fill strictly older than the watermark. -/
def c8FillOld : Fill := ⟨7, "X", 50, 0, 1, "b", -5, 0, 0, none, ""⟩

/-- A fill at the watermark timestamp whose dedup key matches `c8Entry`. -/
def c8FillDup : Fill := ⟨1, "X", 100, 0, 5, "a", 0, 0, 1, none, ""⟩

/-- A genuinely new fill above the watermark. -/
def c8FillNew : Fill := ⟨9, "X", 150, 0, 2, "b", -5, 0, 0, none, ""⟩

def c8Fills : List Fill := [c8FillOld, c8FillDup, c8FillNew]

/-- Fixtures for the C9 witness: the same three-fill batch shape as the C7
scenario (open short, failing combined fill, close short). -/
def c9FillG : Fill := ⟨1, "X", 100, 0, 5, "a", 0, 0, 1, none, ""⟩

def c9FillF : Fill := ⟨2, "X", 100, 0, 8, "b", -5, 50, 8, none, ""⟩

def c9FillH : Fill := ⟨3, "X", 100, 0, 5, "b", -5, 10, 0, none, ""⟩

/-- Store for the C10 witness: one persisted row leaving 5 units of remaining
short exposure. -/
def c10Entry : Entry :=
  ⟨1, "X", 100, 0, 5, "a", "Open Short", 0, 1, 0, ⟨0, 0, 5, 0, 0, 1⟩, 0, 5, 0, 0, 1, 0⟩

def c10Store : List Entry := [c10Entry]

/-- A combined `Close Short + Open Long` fill whose close-leg fee share
against `c10Store` is `8 × 5/8 = 5 ≠ 0`. -/
def c10Fill : Fill := ⟨2, "X", 100, 0, 8, "b", -5, 50, 8, none, ""⟩

/-- A plain `Open Long` fill (buy 10 at start position 0), used by the C4
witness. -/
def c4WFill : Fill := ⟨1, "X", 1, 100, 10, "b", 0, 0, 1, none, ""⟩

/-- Two fills with distinct timestamps, used by the C6 witness. -/
def c6WFill1 : Fill := ⟨1, "X", 100, 0, 10, "b", 0, 0, 1, none, ""⟩

def c6WFill2 : Fill := ⟨2, "X", 200, 0, 10, "a", 10, 100, 0, none, ""⟩

/-! ## Helper lemmas -/

theorem get_direction_eq_position_algebra {fill : Fill} (w : String)
    (hliq : ∀ l, fill.liquidation = some l → l.method ≠ "market") (hsz : 0 < fill.sz) :
    get_direction fill w =
      position_algebra fill.side.toLower fill.startPosition fill.sz fill.dirField := by
  simp only [get_direction]
  rw [if_neg (not_le.mpr hsz)]
  cases h : fill.liquidation with
  | none => rfl
  | some l =>
    dsimp only
    rw [if_neg (hliq l h)]

theorem sell_not_buy {s : String} (h : s = "a" ∨ s = "sell") : ¬ (s = "b" ∨ s = "buy") := by
  rcases h with rfl | rfl <;> rintro (h | h) <;> exact absurd h (by decide)

theorem run_fills_incremental_cons_none {store : List Entry} {w : String} {f : Fill}
    {rest : List Fill} (h : process_fill_incremental store w f = none) :
    run_fills_incremental store w (f :: rest) = run_fills_incremental store w rest := by
  simp [run_fills_incremental, h]

theorem run_fills_incremental_cons_some {store : List Entry} {w : String} {f : Fill}
    {rest : List Fill} {e : Entry} (h : process_fill_incremental store w f = some e) :
    run_fills_incremental store w (f :: rest) =
      ((run_fills_incremental (store ++ [e]) w rest).1,
        (run_fills_incremental (store ++ [e]) w rest).2 + 1) := by
  simp [run_fills_incremental, h]

/-- The candidate-selection loop is the `List.filter` of the conjunction of the
watermark test and the negated dedup test. -/
theorem filter_new_trades_eq_filter (store : List Entry) (fills : List Fill) :
    filter_new_trades store fills =
      fills.filter fun f => decide (get_last_trade_timestamp store ≤ f.time) &&
        ! trade_exists_in_db store f.oid f.coin f.time f.sz f.startPosition := by
  induction fills with
  | nil => rfl
  | cons f rest ih =>
    by_cases h1 : get_last_trade_timestamp store ≤ f.time <;>
      by_cases h2 : trade_exists_in_db store f.oid f.coin f.time f.sz f.startPosition = true <;>
        simp [filter_new_trades, List.filter_cons, h1, h2, ih]

theorem clamp10_zero : clamp10 0 = 0 := by
  unfold clamp10
  norm_num [tol10]

theorem clamp10_nonneg {x : Rat} (hx : 0 ≤ x) : 0 ≤ clamp10 x := by
  unfold clamp10
  split <;> simp [hx]

theorem clamp10_eq_zero_abs_lt {x : Rat} (h : clamp10 x = 0) : |x| < tol10 := by
  unfold clamp10 at h
  split at h
  · assumption
  · subst h; norm_num [tol10]

theorem totals_step_close_long {current : Totals} {direction : String} {size fee : Rat}
    (h : direction ∈ close_directions) (hsz : 0 < size) :
    totals_step current direction size fee = apply_close_long current size := by
  have h1 : direction ∉ open_directions := by
    intro hm; fin_cases h <;> revert hm <;> decide
  unfold totals_step
  rw [if_pos hsz, if_neg h1, if_pos h]

theorem totals_step_close_short {current : Totals} {direction : String} {size fee : Rat}
    (h : direction ∈ short_close_directions) (hsz : 0 < size) :
    totals_step current direction size fee = apply_close_short current size := by
  have h1 : direction ∉ open_directions := by
    intro hm; fin_cases h <;> revert hm <;> decide
  have h2 : direction ∉ close_directions := by
    intro hm; fin_cases h <;> revert hm <;> decide
  have h3 : direction ∉ short_open_directions := by
    intro hm; fin_cases h <;> revert hm <;> decide
  unfold totals_step
  rw [if_pos hsz, if_neg h1, if_neg h2, if_neg h3, if_pos h]

theorem sorted_lt_of_sorted_le_nodup {l : List Fill} (hs : List.Sorted fill_time_le l)
    (hnd : (l.map Fill.time).Nodup) : List.Sorted fill_time_lt l := by
  have hne : l.Pairwise fun a b => a.time ≠ b.time := List.pairwise_map.mp hnd
  exact (List.Pairwise.and hs hne).imp fun h => lt_of_le_of_ne h.1 h.2

/-- A stable sort by timestamp is determined by the multiset of fills when no
two fills share a timestamp. -/
theorem sort_by_time_eq_of_perm {l1 l2 : List Fill} (hperm : l1.Perm l2)
    (hnd : (l1.map Fill.time).Nodup) : sort_by_time l1 = sort_by_time l2 := by
  have hs1 : List.Sorted fill_time_le (sort_by_time l1) :=
    List.sorted_insertionSort fill_time_le l1
  have hs2 : List.Sorted fill_time_le (sort_by_time l2) :=
    List.sorted_insertionSort fill_time_le l2
  have hp1 : (sort_by_time l1).Perm l1 := List.perm_insertionSort fill_time_le l1
  have hp2 : (sort_by_time l2).Perm l2 := List.perm_insertionSort fill_time_le l2
  have hnd1 : ((sort_by_time l1).map Fill.time).Nodup :=
    (hp1.map Fill.time).nodup_iff.mpr hnd
  have hnd2 : ((sort_by_time l2).map Fill.time).Nodup :=
    (hp2.map Fill.time).nodup_iff.mpr ((hperm.map Fill.time).nodup_iff.mp hnd)
  exact List.eq_of_perm_of_sorted (hp1.trans (hperm.trans hp2.symm))
    (sorted_lt_of_sorted_le_nodup hs1 hnd1) (sorted_lt_of_sorted_le_nodup hs2 hnd2)

theorem apply_close_long_fees_nonneg (current : Totals) (size : Rat)
    (hfl : 0 ≤ current.accumulated_fees_long) (hfs : 0 ≤ current.accumulated_fees_short) :
    0 ≤ (apply_close_long current size).totals.accumulated_fees_long ∧
    0 ≤ (apply_close_long current size).totals.accumulated_fees_short := by
  simp only [apply_close_long]
  split_ifs with h1 h2 <;> (try dsimp only) <;> constructor <;>
    first
      | exact hfl
      | exact hfs
      | exact le_refl 0
      | (have hp : min (size / (current.total_open_size_long - current.total_close_size_long)) 1 ≤ 1 :=
          min_le_right _ _
         have hprod : 0 ≤ current.accumulated_fees_long *
            (1 - min (size / (current.total_open_size_long - current.total_close_size_long)) 1) :=
          mul_nonneg hfl (by linarith)
         nlinarith [hprod])

theorem apply_close_short_fees_nonneg (current : Totals) (size : Rat)
    (hfl : 0 ≤ current.accumulated_fees_long) (hfs : 0 ≤ current.accumulated_fees_short) :
    0 ≤ (apply_close_short current size).totals.accumulated_fees_long ∧
    0 ≤ (apply_close_short current size).totals.accumulated_fees_short := by
  simp only [apply_close_short]
  split_ifs with h1 h2 <;> (try dsimp only) <;> constructor <;>
    first
      | exact hfl
      | exact hfs
      | exact le_refl 0
      | (have hp : min (size / (current.total_open_size_short - current.total_close_size_short)) 1 ≤ 1 :=
          min_le_right _ _
         have hprod : 0 ≤ current.accumulated_fees_short *
            (1 - min (size / (current.total_open_size_short - current.total_close_size_short)) 1) :=
          mul_nonneg hfs (by linarith)
         nlinarith [hprod])

theorem apply_combined_csol_fees_nonneg (current : Totals) (size fee : Rat)
    (hfl : 0 ≤ current.accumulated_fees_long) (hfs : 0 ≤ current.accumulated_fees_short)
    (hfee : 0 ≤ fee) (hsz : 0 < size) :
    0 ≤ (apply_combined_close_short_open_long current size fee).totals.accumulated_fees_long ∧
    0 ≤ (apply_combined_close_short_open_long current size fee).totals.accumulated_fees_short := by
  have habs : (0:Rat) ≤ |current.total_open_size_short - current.total_close_size_short| :=
    abs_nonneg _
  simp only [apply_combined_close_short_open_long]
  rw [if_pos hsz]
  split_ifs with h1 h2 <;> (try dsimp only) <;> constructor <;>
    first
      | exact hfl
      | exact hfs
      | exact le_refl 0
      | (have hlt : |current.total_open_size_short - current.total_close_size_short| < size := by
          linarith
         have hdiv : |current.total_open_size_short - current.total_close_size_short| / size ≤ 1 :=
          (div_le_one hsz).mpr (le_of_lt hlt)
         have hmul : fee * (|current.total_open_size_short - current.total_close_size_short| / size)
            ≤ fee * 1 := mul_le_mul_of_nonneg_left hdiv hfee
         linarith)

theorem apply_combined_clos_fees_nonneg (current : Totals) (size fee : Rat)
    (hfl : 0 ≤ current.accumulated_fees_long) (hfs : 0 ≤ current.accumulated_fees_short)
    (hfee : 0 ≤ fee) (hsz : 0 < size) :
    0 ≤ (apply_combined_close_long_open_short current size fee).totals.accumulated_fees_long ∧
    0 ≤ (apply_combined_close_long_open_short current size fee).totals.accumulated_fees_short := by
  have habs : (0:Rat) ≤ |current.total_open_size_long - current.total_close_size_long| :=
    abs_nonneg _
  simp only [apply_combined_close_long_open_short]
  rw [if_pos hsz]
  split_ifs with h1 h2 <;> (try dsimp only) <;> constructor <;>
    first
      | exact hfl
      | exact hfs
      | exact le_refl 0
      | (have hlt : |current.total_open_size_long - current.total_close_size_long| < size := by
          linarith
         have hdiv : |current.total_open_size_long - current.total_close_size_long| / size ≤ 1 :=
          (div_le_one hsz).mpr (le_of_lt hlt)
         have hmul : fee * (|current.total_open_size_long - current.total_close_size_long| / size)
            ≤ fee * 1 := mul_le_mul_of_nonneg_left hdiv hfee
         linarith)

theorem totals_step_fees_nonneg (current : Totals) (direction : String) (size fee : Rat)
    (hfl : 0 ≤ current.accumulated_fees_long) (hfs : 0 ≤ current.accumulated_fees_short)
    (hfee : 0 ≤ fee) :
    0 ≤ (totals_step current direction size fee).totals.accumulated_fees_long ∧
    0 ≤ (totals_step current direction size fee).totals.accumulated_fees_short := by
  unfold totals_step
  split_ifs with h0 h1 h2 h3 h4 h5 h6
  all_goals try dsimp only
  all_goals first
    | exact ⟨hfl, hfs⟩
    | exact ⟨add_nonneg hfl hfee, hfs⟩
    | exact ⟨hfl, add_nonneg hfs hfee⟩
    | exact apply_close_long_fees_nonneg current size hfl hfs
    | exact apply_close_short_fees_nonneg current size hfl hfs
    | exact apply_combined_csol_fees_nonneg current size fee hfl hfs hfee h0
    | exact apply_combined_clos_fees_nonneg current size fee hfl hfs hfee h0

theorem get_last_trade_timestamp_def (store : List Entry) :
    get_last_trade_timestamp store = store.foldl (fun m e => max m e.time) 0 := rfl

theorem le_foldl_max_time (l : List Entry) (a : Nat) :
    a ≤ l.foldl (fun m e => max m e.time) a := by
  induction l generalizing a with
  | nil => exact le_refl a
  | cons x xs ih =>
    rw [List.foldl_cons]
    exact le_trans (le_max_left a x.time) (ih (max a x.time))

theorem mem_time_le_foldl_max (l : List Entry) (a : Nat) :
    ∀ e ∈ l, e.time ≤ l.foldl (fun m e => max m e.time) a := by
  induction l generalizing a with
  | nil => intro e he; cases he
  | cons x xs ih =>
    intro e he
    rw [List.foldl_cons]
    rcases List.mem_cons.mp he with h | hmem
    · subst h
      exact le_trans (le_max_right a e.time) (le_foldl_max_time xs (max a e.time))
    · exact ih (max a x.time) e hmem

theorem foldl_max_attained (l : List Entry) (a : Nat) :
    l.foldl (fun m e => max m e.time) a = a ∨
      ∃ e ∈ l, l.foldl (fun m e => max m e.time) a = e.time := by
  induction l generalizing a with
  | nil => left; rfl
  | cons x xs ih =>
    rw [List.foldl_cons]
    rcases ih (max a x.time) with h | ⟨e, he, hee⟩
    · rcases max_choice a x.time with hm | hm
      · left; rw [h, hm]
      · right; exact ⟨x, List.mem_cons_self x xs, by rw [h, hm]⟩
    · right; exact ⟨e, List.mem_cons_of_mem x he, hee⟩

/-! ## Claim theorems -/

/-- C1: the code contradicts the claim.  For the combined fill of spec
Scenario C (`Close Short + Open Long`, size 8, total fee 1, prior short
exposure 5 with reserve `0.4`, venue `closedPnl = 100`) the transition yields
`closeFeeOnly = 5/8` and `realizedFee = 2/5`, so the claim prescribes a net
PnL of `100 − (5/8 + 2/5) ≠ 0`; but `calculate_net_pnl` returns `0`, because
the combined direction string contains `"Open"` as a substring and the
Open/Increase early return fires before the `close_fee_only` branch is ever
reached. -/
theorem c1_combined_netpnl_is_zeroed :
    c1Nt.close_fee_only = some (5/8) ∧ c1Nt.realized_fees = 2/5 ∧
    calculate_net_pnl 100 1 0 c1Nt.realized_fees "Close Short + Open Long"
      c1Nt.close_fee_only = 0 ∧
    (100 : Rat) - (5/8 + 2/5) ≠ 0 := by
  with_unfolding_all decide

/-- C2: the code contradicts the claim on the incremental path.  For the
`Open Long` fill `c2Fill` (exchange fee 1, bot fee `0.5`), the incremental
unit succeeds but records `netPnl = 0 − (1 + 0.5 + 0) = −1.5 ≠ 0`, because
the call at src/main.py line 1003 omits the `direction` argument, so the
Open/Increase zero rule never fires there. -/
theorem c2_open_netpnl_nonzero_incremental :
    get_direction c2Fill "w" = "Open Long" ∧
    (process_fill_incremental [] "w" c2Fill).map Entry.net_pnl = some (-(3/2)) := by
  with_unfolding_all decide

/-- C3 counterexample: a `Close Long` transition of size `1e-11` from the
state `open = close = 0`, `feeReserveLong = 1`.  After the update
`open − close = −1e-11` is within `1e-10` of zero while the reserve `1`
exceeds `1e-6`, so the claim demands the forced settlement
(`realizedFee = 1`, reserve forced to `0`); the code instead leaves
`realizedFee = 0` and the reserve at `1`, because the settlement check is
nested inside the proportional-realization branch, which is skipped when
`remainingBefore = 0`. -/
theorem c3_forced_settlement_not_applied :
    c3Nt.realized_fees = 0 ∧ c3Nt.totals.accumulated_fees_long = 1 ∧
    c3Nt.remaining_open_size_long = 0 ∧
    |(0 : Rat) - (0 + 1/10^11)| < tol10 ∧ tol6 < (1 : Rat) := by
  with_unfolding_all decide

/-- C3 as amended: for a Close/Decrease transition on side S with size > 0,
with `remainingBefore = open_S − close_S` taken pre-update, `close_S`
increases by `size`, `open_S` is unchanged; when `remainingBefore > 0` and
`feeReserve_S > 0` the transition realizes
`feeReserve_S × min(size / remainingBefore, 1)` — with the forced settlement
(reserve zeroed, residue added to the realized fee) applied exactly when,
inside that branch, the post-update remainder is within `1e-10` of zero and
the residual reserve exceeds `1e-6`, the reserve otherwise keeping the residue
subject to the final `1e-10` clamp; outside that branch `realizedFee = 0` and
the reserve is only clamped.  (The original claim's unconditional forced
settlement does not hold: it is nested inside the realization branch, see the
counterexample.) -/
theorem c3_close_decrease_characterization (current : Totals) (direction : String)
    (size exchange_fee bot_fee : Rat) (hsz : 0 < size) :
    (direction ∈ close_directions →
      (calculate_new_totals current direction size exchange_fee bot_fee).totals.total_close_size_long
          = current.total_close_size_long + size ∧
      (calculate_new_totals current direction size exchange_fee bot_fee).totals.total_open_size_long
          = current.total_open_size_long ∧
      (0 < current.total_open_size_long - current.total_close_size_long →
        0 < current.accumulated_fees_long →
        ((|current.total_open_size_long - (current.total_close_size_long + size)| < tol10 ∧
            tol6 < |current.accumulated_fees_long -
              current.accumulated_fees_long *
                min (size / (current.total_open_size_long - current.total_close_size_long)) 1| →
          (calculate_new_totals current direction size exchange_fee bot_fee).realized_fees =
            current.accumulated_fees_long *
                min (size / (current.total_open_size_long - current.total_close_size_long)) 1 +
              (current.accumulated_fees_long -
                current.accumulated_fees_long *
                  min (size / (current.total_open_size_long - current.total_close_size_long)) 1) ∧
          (calculate_new_totals current direction size exchange_fee
              bot_fee).totals.accumulated_fees_long = 0) ∧
        (¬ (|current.total_open_size_long - (current.total_close_size_long + size)| < tol10 ∧
            tol6 < |current.accumulated_fees_long -
              current.accumulated_fees_long *
                min (size / (current.total_open_size_long - current.total_close_size_long)) 1|) →
          (calculate_new_totals current direction size exchange_fee bot_fee).realized_fees =
            current.accumulated_fees_long *
              min (size / (current.total_open_size_long - current.total_close_size_long)) 1 ∧
          (calculate_new_totals current direction size exchange_fee
              bot_fee).totals.accumulated_fees_long =
            clamp10 (current.accumulated_fees_long -
              current.accumulated_fees_long *
                min (size / (current.total_open_size_long - current.total_close_size_long)) 1)))) ∧
      (¬ (0 < current.total_open_size_long - current.total_close_size_long ∧
          0 < current.accumulated_fees_long) →
        (calculate_new_totals current direction size exchange_fee bot_fee).realized_fees = 0 ∧
        (calculate_new_totals current direction size exchange_fee
            bot_fee).totals.accumulated_fees_long =
          clamp10 current.accumulated_fees_long)) ∧
    (direction ∈ short_close_directions →
      (calculate_new_totals current direction size exchange_fee bot_fee).totals.total_close_size_short
          = current.total_close_size_short + size ∧
      (calculate_new_totals current direction size exchange_fee bot_fee).totals.total_open_size_short
          = current.total_open_size_short ∧
      (0 < current.total_open_size_short - current.total_close_size_short →
        0 < current.accumulated_fees_short →
        ((|current.total_open_size_short - (current.total_close_size_short + size)| < tol10 ∧
            tol6 < |current.accumulated_fees_short -
              current.accumulated_fees_short *
                min (size / (current.total_open_size_short - current.total_close_size_short)) 1| →
          (calculate_new_totals current direction size exchange_fee bot_fee).realized_fees =
            current.accumulated_fees_short *
                min (size / (current.total_open_size_short - current.total_close_size_short)) 1 +
              (current.accumulated_fees_short -
                current.accumulated_fees_short *
                  min (size / (current.total_open_size_short - current.total_close_size_short)) 1) ∧
          (calculate_new_totals current direction size exchange_fee
              bot_fee).totals.accumulated_fees_short = 0) ∧
        (¬ (|current.total_open_size_short - (current.total_close_size_short + size)| < tol10 ∧
            tol6 < |current.accumulated_fees_short -
              current.accumulated_fees_short *
                min (size / (current.total_open_size_short - current.total_close_size_short)) 1|) →
          (calculate_new_totals current direction size exchange_fee bot_fee).realized_fees =
            current.accumulated_fees_short *
              min (size / (current.total_open_size_short - current.total_close_size_short)) 1 ∧
          (calculate_new_totals current direction size exchange_fee
              bot_fee).totals.accumulated_fees_short =
            clamp10 (current.accumulated_fees_short -
              current.accumulated_fees_short *
                min (size / (current.total_open_size_short - current.total_close_size_short)) 1)))) ∧
      (¬ (0 < current.total_open_size_short - current.total_close_size_short ∧
          0 < current.accumulated_fees_short) →
        (calculate_new_totals current direction size exchange_fee bot_fee).realized_fees = 0 ∧
        (calculate_new_totals current direction size exchange_fee
            bot_fee).totals.accumulated_fees_short =
          clamp10 current.accumulated_fees_short)) := by
  constructor
  · intro hmem
    simp only [calculate_new_totals]
    rw [totals_step_close_long hmem hsz]
    simp only [apply_close_long]
    split_ifs with h1 h2
    · refine ⟨rfl, rfl, ?_, ?_⟩
      · intro _ _
        exact ⟨fun _ => ⟨rfl, clamp10_zero⟩, fun hn => absurd h2 hn⟩
      · intro hn; exact absurd h1 hn
    · refine ⟨rfl, rfl, ?_, ?_⟩
      · intro _ _
        exact ⟨fun hc => absurd hc h2, fun _ => ⟨rfl, rfl⟩⟩
      · intro hn; exact absurd h1 hn
    · refine ⟨rfl, rfl, ?_, ?_⟩
      · intro ha hb; exact absurd ⟨ha, hb⟩ h1
      · intro _; exact ⟨rfl, rfl⟩
  · intro hmem
    simp only [calculate_new_totals]
    rw [totals_step_close_short hmem hsz]
    simp only [apply_close_short]
    split_ifs with h1 h2
    · refine ⟨rfl, rfl, ?_, ?_⟩
      · intro _ _
        exact ⟨fun _ => ⟨rfl, clamp10_zero⟩, fun hn => absurd h2 hn⟩
      · intro hn; exact absurd h1 hn
    · refine ⟨rfl, rfl, ?_, ?_⟩
      · intro _ _
        exact ⟨fun hc => absurd hc h2, fun _ => ⟨rfl, rfl⟩⟩
      · intro hn; exact absurd h1 hn
    · refine ⟨rfl, rfl, ?_, ?_⟩
      · intro ha hb; exact absurd ⟨ha, hb⟩ h1
      · intro _; exact ⟨rfl, rfl⟩

/-- Witness for the amended C3 at spec Scenario B: closing the long of 10
bumps the close size from 0 to 10. -/
theorem c3_close_decrease_characterization_witness :
    (calculate_new_totals ⟨10, 0, 0, 0, 1, 0⟩ "Close Long" 10 (11/10) 0).totals.total_close_size_long
      = (0 : Rat) + 10 :=
  ((c3_close_decrease_characterization ⟨10, 0, 0, 0, 1, 0⟩ "Close Long" 10 (11/10) 0
    (by norm_num)).1 (by decide)).1

/-- C4 counterexample: the buy fill `c4Fill` has `startPosition = 0` and
`size = 1e-11 > 0`, so the claim's rule `startPosition == 0 → Open Long`
applies; but the classifier tests `|newPosition| < 1e-10` first and returns
`Close Short`. -/
theorem c4_zero_start_not_open :
    c4Fill.startPosition = 0 ∧ 0 < c4Fill.sz ∧ c4Fill.liquidation = none ∧
    get_direction c4Fill "w" = "Close Short" ∧ "Close Short" ≠ "Open Long" := by
  with_unfolding_all decide

/-- C4 as amended: for fills that are not market liquidations the classifier
implements the signed position algebra (`newPosition = startPosition + size`
for a buy, `− size` for a sell) with the checks applied in the code's order:
the full-close test `|newPosition| < 1e-10` is applied before the zero-start
test, and the Open-vs-combined decision treats `|startPosition| < 1e-10` as
zero; `size ≤ 0` is Invalid.  (The original claim's rule order fails: a
zero-start fill of size below `1e-10` classifies as Close, see the
counterexample.) -/
theorem c4_position_algebra_characterization (fill : Fill) (w : String)
    (hliq : ∀ l, fill.liquidation = some l → l.method ≠ "market") :
    (fill.sz ≤ 0 → get_direction fill w = "Invalid (sz: " ++ toString fill.sz ++ ")") ∧
    (0 < fill.sz →
      ((fill.side.toLower = "b" ∨ fill.side.toLower = "buy") →
        (fill.startPosition ≤ 0 →
          (|fill.startPosition + fill.sz| < tol10 → get_direction fill w = "Close Short") ∧
          (¬ |fill.startPosition + fill.sz| < tol10 → 0 < fill.startPosition + fill.sz →
            (|fill.startPosition| < tol10 → get_direction fill w = "Open Long") ∧
            (¬ |fill.startPosition| < tol10 →
              get_direction fill w = "Close Short + Open Long")) ∧
          (¬ |fill.startPosition + fill.sz| < tol10 → ¬ 0 < fill.startPosition + fill.sz →
            get_direction fill w = "Decrease Short")) ∧
        (0 < fill.startPosition → get_direction fill w = "Increase Long")) ∧
      ((fill.side.toLower = "a" ∨ fill.side.toLower = "sell") →
        (0 ≤ fill.startPosition →
          (|fill.startPosition - fill.sz| < tol10 → get_direction fill w = "Close Long") ∧
          (¬ |fill.startPosition - fill.sz| < tol10 → fill.startPosition - fill.sz < 0 →
            (|fill.startPosition| < tol10 → get_direction fill w = "Open Short") ∧
            (¬ |fill.startPosition| < tol10 →
              get_direction fill w = "Close Long + Open Short")) ∧
          (¬ |fill.startPosition - fill.sz| < tol10 → ¬ fill.startPosition - fill.sz < 0 →
            get_direction fill w = "Decrease Long")) ∧
        (fill.startPosition < 0 → get_direction fill w = "Increase Short"))) := by
  constructor
  · intro hsz0
    simp only [get_direction]
    rw [if_pos hsz0]
  · intro hsz
    have hd := get_direction_eq_position_algebra w hliq hsz
    constructor
    · intro hbuy
      rw [hd]
      simp only [position_algebra]
      rw [if_pos hbuy]
      refine ⟨fun hp0 => ?_, fun hppos => ?_⟩
      · rw [if_pos hp0]
        refine ⟨fun htiny => by rw [if_pos htiny], fun hnt hpos => ?_, fun hnt hnpos => ?_⟩
        · rw [if_neg hnt, if_pos hpos]
          exact ⟨fun hst => by rw [if_pos hst], fun hnst => by rw [if_neg hnst]⟩
        · rw [if_neg hnt, if_neg hnpos]
      · rw [if_neg (not_le.mpr hppos)]
    · intro hsell
      rw [hd]
      simp only [position_algebra]
      rw [if_neg (sell_not_buy hsell), if_pos hsell]
      refine ⟨fun hp0 => ?_, fun hpneg => ?_⟩
      · rw [if_pos hp0]
        refine ⟨fun htiny => by rw [if_pos htiny], fun hnt hneg => ?_, fun hnt hnneg => ?_⟩
        · rw [if_neg hnt, if_pos hneg]
          exact ⟨fun hst => by rw [if_pos hst], fun hnst => by rw [if_neg hnst]⟩
        · rw [if_neg hnt, if_neg hnneg]
      · rw [if_neg (not_le.mpr hpneg)]

/-- Witness for the amended C4: the plain buy `c4WFill` from a flat position
classifies as `Open Long`. -/
theorem c4_position_algebra_characterization_witness :
    get_direction c4WFill "w" = "Open Long" :=
  ((((c4_position_algebra_characterization c4WFill "w" (fun _ hl => nomatch hl)).2
        (by with_unfolding_all decide)).1
      (Or.inl (by with_unfolding_all decide))).1
    (by with_unfolding_all decide)).2.1
      (by with_unfolding_all decide) (by with_unfolding_all decide)
    |>.1 (by with_unfolding_all decide)

/-- C5 counterexample: after the two transitions of `c5Nt` (a venue-reported
`Close Long` of size 1 against an empty ledger, then an `Open Long` of size 1
with fee 1) the long side ends with `remainingLong = 0` while
`feeReserveLong = 1 > 1e-6`, violating the claimed settlement invariant. -/
theorem c5_settlement_invariant_fails :
    c5Nt.remaining_open_size_long = 0 ∧ c5Nt.totals.accumulated_fees_long = 1 ∧
    ¬ c5Nt.totals.accumulated_fees_long ≤ tol6 := by
  with_unfolding_all decide

/-- C5 as amended: after every ledger transition the recorded remaining size
of each side equals `open − close` clamped to exactly `0` within `1e-10`; the
fee reserves stay nonnegative (given nonnegative input reserves and fees); and
the settlement guarantee `remaining = 0 → feeReserve ≤ 1e-6` holds after every
Close/Decrease transition on that side that takes the proportional-realization
branch (positive pre-update remainder and positive reserve).  (The original
unconditional settlement invariant fails, see the counterexample: an Open
transition from a negative raw remainder can land on `remaining = 0` with a
full reserve.) -/
theorem c5_ledger_invariants (current : Totals) (direction : String) (size ef bf : Rat)
    (hfl : 0 ≤ current.accumulated_fees_long) (hfs : 0 ≤ current.accumulated_fees_short)
    (hef : 0 ≤ ef) (hbf : 0 ≤ bf) :
    (calculate_new_totals current direction size ef bf).remaining_open_size_long =
      clamp10 ((calculate_new_totals current direction size ef bf).totals.total_open_size_long -
        (calculate_new_totals current direction size ef bf).totals.total_close_size_long) ∧
    (calculate_new_totals current direction size ef bf).remaining_open_size_short =
      clamp10 ((calculate_new_totals current direction size ef bf).totals.total_open_size_short -
        (calculate_new_totals current direction size ef bf).totals.total_close_size_short) ∧
    0 ≤ (calculate_new_totals current direction size ef bf).totals.accumulated_fees_long ∧
    0 ≤ (calculate_new_totals current direction size ef bf).totals.accumulated_fees_short ∧
    (direction ∈ close_directions → 0 < size →
      0 < current.total_open_size_long - current.total_close_size_long →
      0 < current.accumulated_fees_long →
      (calculate_new_totals current direction size ef bf).remaining_open_size_long = 0 →
      (calculate_new_totals current direction size ef bf).totals.accumulated_fees_long ≤ tol6) ∧
    (direction ∈ short_close_directions → 0 < size →
      0 < current.total_open_size_short - current.total_close_size_short →
      0 < current.accumulated_fees_short →
      (calculate_new_totals current direction size ef bf).remaining_open_size_short = 0 →
      (calculate_new_totals current direction size ef bf).totals.accumulated_fees_short ≤ tol6) := by
  refine ⟨rfl, rfl, ?_, ?_, ?_, ?_⟩
  · simp only [calculate_new_totals]
    exact clamp10_nonneg
      (totals_step_fees_nonneg current direction size (ef + bf) hfl hfs (add_nonneg hef hbf)).1
  · simp only [calculate_new_totals]
    exact clamp10_nonneg
      (totals_step_fees_nonneg current direction size (ef + bf) hfl hfs (add_nonneg hef hbf)).2
  · intro hmem hsz hrb hflpos hrem0
    simp only [calculate_new_totals] at hrem0 ⊢
    rw [totals_step_close_long hmem hsz] at hrem0 ⊢
    simp only [apply_close_long] at hrem0 ⊢
    rw [if_pos ⟨hrb, hflpos⟩] at hrem0 ⊢
    split_ifs at hrem0 ⊢ with hdrain
    · dsimp only at hrem0 ⊢
      rw [clamp10_zero]
      norm_num [tol6]
    · dsimp only at hrem0 ⊢
      have habs := clamp10_eq_zero_abs_lt hrem0
      have hno : ¬ tol6 < |current.accumulated_fees_long -
          current.accumulated_fees_long *
            min (size / (current.total_open_size_long - current.total_close_size_long)) 1| :=
        fun hlt => hdrain ⟨habs, hlt⟩
      have hle := not_lt.mp hno
      have hp : min (size / (current.total_open_size_long - current.total_close_size_long)) 1 ≤ 1 :=
        min_le_right _ _
      have hf1 : 0 ≤ current.accumulated_fees_long -
          current.accumulated_fees_long *
            min (size / (current.total_open_size_long - current.total_close_size_long)) 1 := by
        nlinarith [mul_nonneg hfl (sub_nonneg.mpr hp)]
      unfold clamp10
      split
      · norm_num [tol6]
      · calc current.accumulated_fees_long -
            current.accumulated_fees_long *
              min (size / (current.total_open_size_long - current.total_close_size_long)) 1
            ≤ |current.accumulated_fees_long -
              current.accumulated_fees_long *
                min (size / (current.total_open_size_long - current.total_close_size_long)) 1| :=
              le_abs_self _
          _ ≤ tol6 := hle
  · intro hmem hsz hrb hfspos hrem0
    simp only [calculate_new_totals] at hrem0 ⊢
    rw [totals_step_close_short hmem hsz] at hrem0 ⊢
    simp only [apply_close_short] at hrem0 ⊢
    rw [if_pos ⟨hrb, hfspos⟩] at hrem0 ⊢
    split_ifs at hrem0 ⊢ with hdrain
    · dsimp only at hrem0 ⊢
      rw [clamp10_zero]
      norm_num [tol6]
    · dsimp only at hrem0 ⊢
      have habs := clamp10_eq_zero_abs_lt hrem0
      have hno : ¬ tol6 < |current.accumulated_fees_short -
          current.accumulated_fees_short *
            min (size / (current.total_open_size_short - current.total_close_size_short)) 1| :=
        fun hlt => hdrain ⟨habs, hlt⟩
      have hle := not_lt.mp hno
      have hp : min (size / (current.total_open_size_short - current.total_close_size_short)) 1 ≤ 1 :=
        min_le_right _ _
      have hf1 : 0 ≤ current.accumulated_fees_short -
          current.accumulated_fees_short *
            min (size / (current.total_open_size_short - current.total_close_size_short)) 1 := by
        nlinarith [mul_nonneg hfs (sub_nonneg.mpr hp)]
      unfold clamp10
      split
      · norm_num [tol6]
      · calc current.accumulated_fees_short -
            current.accumulated_fees_short *
              min (size / (current.total_open_size_short - current.total_close_size_short)) 1
            ≤ |current.accumulated_fees_short -
              current.accumulated_fees_short *
                min (size / (current.total_open_size_short - current.total_close_size_short)) 1| :=
              le_abs_self _
          _ ≤ tol6 := hle

/-- Witness for the amended C5, at spec Scenarios A and B: the opened fee
reserve is nonnegative, and fully closing the long of Scenario B settles the
long reserve within the `1e-6` tolerance. -/
theorem c5_ledger_invariants_witness :
    0 ≤ (calculate_new_totals zeroTotals "Open Long" 10 1 0).totals.accumulated_fees_long ∧
    (calculate_new_totals ⟨10, 0, 0, 0, 1, 0⟩ "Close Long" 10 (11/10)
      0).totals.accumulated_fees_long ≤ tol6 :=
  ⟨(c5_ledger_invariants zeroTotals "Open Long" 10 1 0 (le_refl 0) (le_refl 0)
      (by with_unfolding_all decide) (le_refl 0)).2.2.1,
   (c5_ledger_invariants ⟨10, 0, 0, 0, 1, 0⟩ "Close Long" 10 (11/10) 0
      (by with_unfolding_all decide) (le_refl 0) (by with_unfolding_all decide)
      (le_refl 0)).2.2.2.2.1
    (by decide) (by with_unfolding_all decide) (by with_unfolding_all decide)
    (by with_unfolding_all decide) (by with_unfolding_all decide)⟩

/-- C6 counterexample: the incremental reconciler sorts candidates by
timestamp only (src/main.py line 972), so two fills sharing timestamp 100 are
applied in delivery order.  Delivering `[A, B]` (open then close) realizes the
reserved fee, while `[B, A]` closes against a flat ledger and then leaves the
fee reserved; the final stores differ although the two deliveries are
permutations of each other. -/
theorem c6_delivery_order_changes_state :
    ([c6FillA, c6FillB] : List Fill).Perm [c6FillB, c6FillA] ∧
    (process_incremental_trades_for_wallet [] "w" [c6FillA, c6FillB]).1 ≠
      (process_incremental_trades_for_wallet [] "w" [c6FillB, c6FillA]).1 := by
  constructor
  · exact List.Perm.swap c6FillB c6FillA []
  · with_unfolding_all decide

/-- C6 as amended: the incremental reconciler sorts its candidates by
timestamp only (Python's `sorted` is stable, modelled by a stable insertion
sort), so reconciliation from the same persisted store reaches an identical
final ledger state under any delivery order provided no two fills share a
timestamp.  (The full-sync path sorts by `(timestamp, oid)`; the original
claim's unconditional order independence for the reconciler fails at equal
timestamps, see the counterexample.) -/
theorem c6_order_independent_when_times_distinct (store : List Entry) (w : String)
    (l1 l2 : List Fill) (hperm : l1.Perm l2) (hnd : (l1.map Fill.time).Nodup) :
    process_incremental_trades_for_wallet store w l1 =
      process_incremental_trades_for_wallet store w l2 := by
  unfold process_incremental_trades_for_wallet
  rw [filter_new_trades_eq_filter, filter_new_trades_eq_filter]
  have hsorteq : sort_by_time (l1.filter fun f =>
        decide (get_last_trade_timestamp store ≤ f.time) &&
          ! trade_exists_in_db store f.oid f.coin f.time f.sz f.startPosition) =
      sort_by_time (l2.filter fun f =>
        decide (get_last_trade_timestamp store ≤ f.time) &&
          ! trade_exists_in_db store f.oid f.coin f.time f.sz f.startPosition) := by
    apply sort_by_time_eq_of_perm
    · exact hperm.filter _
    · exact List.Nodup.sublist (List.Sublist.map Fill.time (List.filter_sublist l1)) hnd
  rw [hsorteq]

/-- Witness for the amended C6: two fills at distinct timestamps delivered in
either order reconcile to the same result. -/
theorem c6_order_independent_witness :
    process_incremental_trades_for_wallet [] "w" [c6WFill1, c6WFill2] =
      process_incremental_trades_for_wallet [] "w" [c6WFill2, c6WFill1] :=
  c6_order_independent_when_times_distinct [] "w" _ _
    (List.Perm.swap c6WFill2 c6WFill1 []) (by with_unfolding_all decide)

/-- C7: the code contradicts the claim.  In the first incremental run over
`[G, F, H]` the combined fill `F` fails with a `TypeError` (its close-leg fee
share `5` is bound to the `direction` parameter) and only `G` and `H` are
inserted; the second run over the identical fill set then finds `F`'s dedup
key absent, recomputes its transition against the now fully-closed short side
(close-leg fee share `0`), inserts it and returns applied-count `1`, changing
the ledger state. -/
theorem c7_second_run_not_noop :
    c7Run1.2 = 2 ∧ c7Run2.2 = 1 ∧ c7Run2.1 ≠ c7Run1.1 := by
  with_unfolding_all decide

/-- C9: a fill whose classify→apply→compute unit fails at its position in the
batch is not counted and does not abort the batch — the loop's final store and
applied count are exactly those of the batch with the failing fill removed, so
every remaining fill is still processed. -/
theorem c9_failed_fill_isolated (store : List Entry) (w : String) (pre suf : List Fill)
    (f : Fill)
    (hfail : process_fill_incremental (run_fills_incremental store w pre).1 w f = none) :
    run_fills_incremental store w (pre ++ f :: suf) =
      run_fills_incremental store w (pre ++ suf) := by
  induction pre generalizing store with
  | nil =>
    simp only [List.nil_append]
    exact run_fills_incremental_cons_none hfail
  | cons a pre ih =>
    simp only [List.cons_append]
    cases hpa : process_fill_incremental store w a with
    | none =>
      rw [run_fills_incremental_cons_none hpa, run_fills_incremental_cons_none hpa]
      apply ih
      rwa [run_fills_incremental_cons_none hpa] at hfail
    | some e =>
      rw [run_fills_incremental_cons_some hpa, run_fills_incremental_cons_some hpa]
      rw [ih]
      rwa [run_fills_incremental_cons_some hpa] at hfail

/-- Witness for C9 at the concrete three-fill batch: the combined fill fails
after the opening fill, and the batch result equals that of the batch without
it. -/
theorem c9_failed_fill_isolated_witness :
    run_fills_incremental [] "w" ([c9FillG] ++ c9FillF :: [c9FillH]) =
      run_fills_incremental [] "w" ([c9FillG] ++ [c9FillH]) :=
  c9_failed_fill_isolated [] "w" [c9FillG] [c9FillH] c9FillF (by with_unfolding_all decide)

/-- C10: whenever the ledger transition of a fill produces a numeric, nonzero
`close_fee_only` (the combined Close+Open case with a nonzero fee share), the
incremental net-PnL call — whose fifth positional argument binds that value to
the `direction` parameter — raises `TypeError`; the fill is skipped, no row is
inserted, and it is not counted. -/
theorem c10_combined_fill_raises_and_is_skipped (store : List Entry) (w : String)
    (f : Fill) (rest : List Fill) (c : Rat)
    (hc : (calculate_new_totals (get_current_totals store f.coin) (get_direction f w)
        f.sz f.fee (calculate_bot_fee f.sz f.px 5)).close_fee_only = some c)
    (hcne : c ≠ 0) :
    process_fill_incremental store w f = none ∧
    run_fills_incremental store w (f :: rest) = run_fills_incremental store w rest := by
  have h1 : process_fill_incremental store w f = none := by
    simp only [process_fill_incremental]
    rw [hc]
    simp [calculate_net_pnl_incr_call, hcne]
  exact ⟨h1, run_fills_incremental_cons_none h1⟩

/-- Witness for C10: the combined fill `c10Fill` against `c10Store` has
`close_fee_only = 5`, is skipped, and inserts nothing. -/
theorem c10_combined_fill_raises_witness :
    process_fill_incremental c10Store "w" c10Fill = none ∧
    run_fills_incremental c10Store "w" [c10Fill] = run_fills_incremental c10Store "w" [] :=
  c10_combined_fill_raises_and_is_skipped c10Store "w" c10Fill [] 5
    (by with_unfolding_all decide) (by norm_num)

/-- C8: the watermark is the maximum persisted timestamp (`0` when the store
is empty, attained by some entry otherwise); the candidate loop keeps exactly
the fetched fills whose timestamp is ≥ the watermark (inclusive) and whose
5-field dedup key `(oid, coin, timestamp, size, startPosition)` is absent from
the store. -/
theorem c8_watermark_and_candidates (store : List Entry) (fills : List Fill) :
    (store = [] → get_last_trade_timestamp store = 0) ∧
    (∀ e ∈ store, e.time ≤ get_last_trade_timestamp store) ∧
    (store ≠ [] → ∃ e ∈ store, get_last_trade_timestamp store = e.time) ∧
    (∀ o c t s sp, trade_exists_in_db store o c t s sp = true ↔
      ∃ e ∈ store, e.oid = o ∧ e.coin = c ∧ e.time = t ∧ e.size = s ∧
        e.startPosition = sp) ∧
    filter_new_trades store fills =
      fills.filter (fun f => decide (get_last_trade_timestamp store ≤ f.time) &&
        ! trade_exists_in_db store f.oid f.coin f.time f.sz f.startPosition) := by
  refine ⟨?_, ?_, ?_, ?_, filter_new_trades_eq_filter store fills⟩
  · intro h; subst h; rfl
  · intro e he
    rw [get_last_trade_timestamp_def]
    exact mem_time_le_foldl_max store 0 e he
  · intro hne
    rw [get_last_trade_timestamp_def]
    rcases foldl_max_attained store 0 with h0 | hex
    · rcases store with _ | ⟨x, xs⟩
      · exact absurd rfl hne
      · refine ⟨x, List.mem_cons_self x xs, ?_⟩
        have hx := mem_time_le_foldl_max (x :: xs) 0 x (List.mem_cons_self x xs)
        omega
    · exact hex
  · intro o c t s sp
    simp [trade_exists_in_db, List.any_eq_true, decide_eq_true_iff]

/-- Witness for C8: empty-store watermark `0`; against the one-entry store the
three-fill fetch keeps exactly the genuinely new fill, and the dedup key of the
persisted row is detected. -/
theorem c8_watermark_and_candidates_witness :
    get_last_trade_timestamp ([] : List Entry) = 0 ∧
    filter_new_trades c8Store c8Fills = [c8FillNew] ∧
    trade_exists_in_db c8Store 1 "X" 100 5 0 = true := by
  refine ⟨(c8_watermark_and_candidates [] []).1 rfl, ?_, ?_⟩
  · rw [(c8_watermark_and_candidates c8Store c8Fills).2.2.2.2]
    with_unfolding_all decide
  · exact ((c8_watermark_and_candidates c8Store []).2.2.2.1 1 "X" 100 5 0).mpr
      ⟨c8Entry, List.mem_cons_self _ _, rfl, rfl, rfl, rfl, rfl⟩

end HL
